import Mathlib

/-!
Verification development for `oslo/log/log.py` (the context-aware logging
façade).  The Python source is embedded shallowly:

* Python values that flow through the enrichment pipeline are modelled by
  `PyVal`; mutable dictionaries are modelled as association lists living in
  an explicit heap (`Heap`), with dictionary objects denoted by `PyVal.vref`
  references, so that aliasing and in-place mutation are observable.
* `ContextAdapter.deprecated` (log.py lines 152-178) is modelled by
  `deprecated`, with emitted log records collected in a list of `LogEvent`s
  and the raised `DeprecatedConfig` exception returned as an `Option PyExn`.
* `ContextAdapter.process` (log.py lines 180-213) is modelled by `process`
  as a heap transformer acting on the `kwargs` dictionary.
* `getLogger` (log.py lines 383-388) is modelled by `getLogger` over an
  explicit registry whose adapter objects are addressed by index, so that
  reference identity of the returned handles is expressible.
* the sink-attachment portion of `_setup_logging_from_conf`
  (log.py lines 306-330) is modelled by `setup_logging_sinks`, whose
  detach step reproduces the source's iteration over the live handler
  list (`detach_handlers_loop`).
-/

/-- Python values appearing in the logging pipeline.  `vref` is a reference
to a mutable dictionary stored in the heap; `vctx` is a request-context
object, represented by its projection to a flat mapping of string fields
(contexts are read-only for the logging core). -/
inductive PyVal where
  | vnone : PyVal
  | vstr : String → PyVal
  | vint : Int → PyVal
  | vref : Nat → PyVal
  | vctx : List (String × String) → PyVal
deriving DecidableEq, Repr, Inhabited

/-- Python truthiness (`if x:`) for the values of the model.  `None` is
falsy, strings/ints are falsy when empty/zero.  Object references (`vref`,
`vctx`) are treated as truthy: the objects reaching the truthiness tests in
`log.py` (context objects, instance objects) are plain objects without
`__bool__`/`__len__`. -/
def truthy : PyVal → Bool
  | PyVal.vnone => false
  | PyVal.vstr s => s != ""
  | PyVal.vint n => n != 0
  | PyVal.vref _ => true
  | PyVal.vctx _ => true

/-- A Python dictionary value: an insertion-ordered association list with
(at most) one binding per key, as maintained by the operations below. -/
abbrev Dict := List (String × PyVal)

/-- Dictionary lookup, `d.get(k)` / `d[k]`. -/
def alookup {α : Type} : List (String × α) → String → Option α
  | [], _ => none
  | p :: rest, k => if p.1 == k then some p.2 else alookup rest k

/-- Dictionary store, `d[k] = v`: replace the binding in place if the key is
present, append it otherwise (Python dicts keep insertion order). -/
def aset {α : Type} : List (String × α) → String → α → List (String × α)
  | [], k, v => [(k, v)]
  | p :: rest, k, v => if p.1 == k then (k, v) :: rest else p :: aset rest k v

/-- Dictionary pop with default, `d.pop(k, dflt)`: return the stored value
(or the default) together with the dictionary with the key removed. -/
def apopD {α : Type} : List (String × α) → String → α → α × List (String × α)
  | [], _, dflt => (dflt, [])
  | p :: rest, k, dflt =>
    if p.1 == k then (p.2, rest)
    else
      let r := apopD rest k dflt
      (r.1, p :: r.2)

/-- Dictionary `d.setdefault(k, v)` (effect part): insert the binding only
when the key is absent. -/
def asetdefault {α : Type} (l : List (String × α)) (k : String) (v : α) :
    List (String × α) :=
  match alookup l k with
  | some _ => l
  | none => l ++ [(k, v)]

/-- Dictionary `d.update(u)`: store every binding of `u` into `d`. -/
def aupdate {α : Type} (l upd : List (String × α)) : List (String × α) :=
  upd.foldl (fun acc p => aset acc p.1 p.2) l

/-- The heap of dictionary objects; `PyVal.vref n` denotes slot `n`. -/
abbrev Heap := List Dict

/-- Read the dictionary at heap slot `n` (out-of-range reads yield the empty
dictionary; theorems carry validity hypotheses). -/
def hget (h : Heap) (n : Nat) : Dict := h.getD n []

/-- Overwrite the dictionary at heap slot `n` (in-place mutation of the
object all aliases of `vref n` see). -/
def hset (h : Heap) (n : Nat) (d : Dict) : Heap := List.set h n d

/-- Allocate a fresh dictionary object, returning the extended heap and the
fresh reference. -/
def halloc (h : Heap) (d : Dict) : Heap × Nat := (h ++ [d], h.length)

/-- Severity levels relevant to the modelled methods (`warn` is an alias of
`warning` in `BaseLoggerAdapter`/`ContextAdapter`). -/
inductive Level where
  | warning : Level
  | critical : Level
deriving DecidableEq, Repr

/-- One emitted log record: severity, message, positional arguments and
keyword arguments as passed to the underlying logger call. -/
structure LogEvent where
  level : Level
  msg : String
  args : List PyVal
  kwargs : Dict
deriving DecidableEq, Repr

/-- Exceptions raised by the modelled code.  `DeprecatedConfig.__init__`
(log.py lines 401-405) formats `"Fatal call to deprecated config: %(msg)s"`
with the given message. -/
inductive PyExn where
  | deprecatedConfig : String → PyExn
deriving DecidableEq, Repr

/-- The `DeprecatedConfig` exception value carrying the formatted message
(log.py lines 401-405). -/
def DeprecatedConfig (msg : String) : PyExn :=
  PyExn.deprecatedConfig ("Fatal call to deprecated config: " ++ msg)

/-- The slice of the global configuration (`ctx._config`) read by
`ContextAdapter`: the `fatal_deprecations` flag and the two instance
formatting templates.  `%`-interpolation of a template with a value is
modelled by a function from the interpolated value to the produced
string. -/
structure Config where
  fatal_deprecations : Bool
  instance_format : PyVal → String
  instance_uuid_format : PyVal → String

/-- The state of a `ContextAdapter` (log.py lines 142-146): the underlying
raw logger's name, the bound project name and version string, and the
`_deprecated_messages_sent` table mapping a message template to the list of
positional-argument tuples already warned about. -/
structure ContextAdapter where
  loggerName : String
  project : PyVal
  version : PyVal
  deprecatedMessagesSent : List (String × List (List PyVal))
deriving DecidableEq, Repr, Inhabited

/-- `ContextAdapter.deprecated` (log.py lines 152-178).  Returns the
adapter state after the call, the log records emitted during the call, and
the raised exception if any.  `stdmsg` is `_("Deprecated: %s") % msg`; with
`fatal_deprecations` set the message is logged at critical severity and
`DeprecatedConfig` is raised; otherwise the per-template list of
already-sent positional-argument tuples (a list, because argument tuples
containing dicts are unhashable) is consulted: a tuple already present
suppresses the log, a new tuple is recorded and logged at warning
severity. -/
def deprecated (conf : Config) (ad : ContextAdapter) (msg : String)
    (args : List PyVal) (kwargs : Dict) :
    ContextAdapter × List LogEvent × Option PyExn :=
  let stdmsg := "Deprecated: " ++ msg
  if conf.fatal_deprecations then
    (ad, [⟨Level.critical, stdmsg, args, kwargs⟩], some (DeprecatedConfig stdmsg))
  else
    let sent_args := (alookup ad.deprecatedMessagesSent msg).getD []
    if args ∈ sent_args then
      ({ ad with
          deprecatedMessagesSent :=
            asetdefault ad.deprecatedMessagesSent msg [] }, [], none)
    else
      ({ ad with
          deprecatedMessagesSent :=
            aset ad.deprecatedMessagesSent msg (sent_args ++ [args]) },
        [⟨Level.warning, stdmsg, args, kwargs⟩], none)

/-- Modelled from the spec: `formatters._dictify_context` is not under
`src/` (only `formatters` callers are); the spec says a Context has "a
method to project itself into a flat mapping of string keys to values for
embedding into a record".  A context object is represented by its
projection, so dictifying it returns exactly its fields (as string
values); non-context values project to the empty mapping. -/
def dictify_context : PyVal → Dict
  | PyVal.vctx fields => fields.map (fun p => (p.1, PyVal.vstr p.2))
  | _ => []

/-- `ContextAdapter.process` (log.py lines 180-213), as a transformer of
the heap of dictionary objects.  `k` is the reference of the `kwargs`
dictionary; `storeCtx` models `getattr(_local.store, 'context', None)`
(the thread-local ContextStore, `none` when unset).  The message-coercion
line (a non-unicode `msg` is coerced with `six.text_type`) concerns only
the Python text types and is orthogonal to the keyword mapping modelled
here; the returned reference is the (mutated-in-place) `kwargs`
dictionary.  Steps, in source order: ensure `kwargs['extra']` exists and
alias it as `extra`; pop `context` and fall back to the thread-local
store, updating `extra` with the dictified context when one is truthy;
pop `instance`, read `instance_uuid` from `extra` or pop it from `kwargs`
(short-circuit `or`), and store the formatted `instance` field; set
`user_identity` by `setdefault` from the popped keyword; store `project`
and `version`; finally store a shallow copy of `extra` under
`extra['extra']`. -/
def process (conf : Config) (ad : ContextAdapter) (storeCtx : Option PyVal)
    (h0 : Heap) (k : Nat) : Heap × Nat :=
  let kw0 := hget h0 k
  let he :=
    match alookup kw0 "extra" with
    | some (PyVal.vref e) => (h0, e)
    | some _ => (h0, h0.length)
    | none =>
      let a := halloc h0 []
      (hset a.1 k (aset kw0 "extra" (PyVal.vref a.2)), a.2)
  let h1 := he.1
  let e := he.2
  let p1 := apopD (hget h1 k) "context" PyVal.vnone
  let h2 := hset h1 k p1.2
  let context := if truthy p1.1 then p1.1 else storeCtx.getD PyVal.vnone
  let h3 :=
    if truthy context then
      hset h2 e (aupdate (hget h2 e) (dictify_context context))
    else h2
  let p2 := apopD (hget h3 k) "instance" PyVal.vnone
  let h4 := hset h3 k p2.2
  let inst := p2.1
  let g := (alookup (hget h4 e) "instance_uuid").getD PyVal.vnone
  let pu :=
    if truthy g then (g, h4)
    else
      let p3 := apopD (hget h4 k) "instance_uuid" PyVal.vnone
      (p3.1, hset h4 k p3.2)
  let instance_uuid := pu.1
  let h5 := pu.2
  let instance_extra :=
    if truthy inst then PyVal.vstr (conf.instance_format inst)
    else if truthy instance_uuid then
      PyVal.vstr (conf.instance_uuid_format instance_uuid)
    else PyVal.vstr ""
  let h6 := hset h5 e (aset (hget h5 e) "instance" instance_extra)
  let p4 := apopD (hget h6 k) "user_identity" PyVal.vnone
  let h7 := hset h6 k p4.2
  let h8 := hset h7 e (asetdefault (hget h7 e) "user_identity" p4.1)
  let h9 := hset h8 e (aset (hget h8 e) "project" ad.project)
  let h10 := hset h9 e (aset (hget h9 e) "version" ad.version)
  let a2 := halloc h10 (hget h10 e)
  let h11 := hset a2.1 e (aset (hget a2.1 e) "extra" (PyVal.vref a2.2))
  (h11, k)

/-- The process-wide logger registry (`_loggers`, log.py line 380) together
with the adapter objects it has created; `table` maps a logical name to the
index of its `ContextAdapter` in `adapters`, so reference identity of the
returned handles is index equality. -/
structure Registry where
  adapters : List ContextAdapter
  table : List (String × Nat)
deriving DecidableEq, Repr, Inhabited

/-- `getLogger` (log.py lines 383-388): on a cache miss construct
`ContextAdapter(logging.getLogger(name), name, version)` (underlying raw
logger of the same name, `project_name := name`, a fresh empty
`_deprecated_messages_sent` table) and cache it; always return the cached
adapter for `name`. -/
def getLogger (r : Registry) (name version : String) : Registry × Nat :=
  match alookup r.table name with
  | some i => (r, i)
  | none =>
    let i := r.adapters.length
    (⟨r.adapters ++ [⟨name, PyVal.vstr name, PyVal.vstr version, []⟩],
      aset r.table name i⟩, i)

/-- Truthiness of an optional configuration string (`None` and `''` are
falsy, as tested by `if logfile:` / `if logpath:` in log.py). -/
def otruthy : Option String → Bool
  | none => false
  | some s => s != ""

/-- `os.path.join` for the two-argument uses in `_get_log_file_path`. -/
def pathJoin (a b : String) : String := a ++ "/" ++ b

/-- The slice of the configuration read by `_get_log_file_path` and the
sink-attachment steps of `_setup_logging_from_conf`. -/
structure SetupConf where
  log_file : Option String
  log_dir : Option String
  use_stderr : Bool
  publish_errors : Bool
deriving DecidableEq, Repr

/-- `_get_log_file_path` (log.py lines 59-73).  `binary` is the optional
explicit binary name parameter (default `None`); `binaryName` models the
result of `handlers._get_binary_name()` (the `handlers` module is not
under `src/`; per the spec the binary name is the name of the running
program, an environment input). -/
def get_log_file_path (conf : SetupConf) (binary : Option String)
    (binaryName : String) : Option String :=
  let logfile := conf.log_file
  let logdir := conf.log_dir
  if otruthy logfile && !otruthy logdir then logfile
  else if otruthy logfile && otruthy logdir then
    some (pathJoin (logdir.getD "") (logfile.getD ""))
  else if otruthy logdir then
    let b := if otruthy binary then binary.getD "" else binaryName
    some (pathJoin (logdir.getD "") b ++ ".log")
  else none

/-- The sinks attached to the root logger by `_setup_logging_from_conf`. -/
inductive Sink where
  | file : String → Sink
  | colorConsole : Sink
  | stdoutConsole : Sink
  | publisher : Sink
deriving DecidableEq, Repr

/-- The detach loop of `_setup_logging_from_conf` (log.py lines 308-309):
`for handler in log_root.handlers: log_root.removeHandler(handler)`
iterates the live `handlers` list while `removeHandler` removes from that
same list, so the loop's index skips the element that slid into the
removed one's position: handlers at positions 0, 2, 4, ... are removed
and those at positions 1, 3, 5, ... survive.  This function returns the
survivors. -/
def detach_handlers_loop : List Sink → List Sink
  | [] => []
  | [_] => []
  | _ :: b :: rest => b :: detach_handlers_loop rest

/-- The sink-attachment portion of `_setup_logging_from_conf`
(log.py lines 306-330), as a function from the root logger's currently
attached sinks to the sinks attached afterwards: run the (incomplete,
see `detach_handlers_loop`) detach loop over the existing handlers,
attach a `WatchedFileHandler` when a log path resolves, attach a
color-capable stderr console handler when `use_stderr` is set, else a
plain stdout console handler when no log path resolved, and attach the
error publisher when `publish_errors` is set.  The formatter/level/syslog
configuration below line 330 is outside this model. -/
def setup_logging_sinks (conf : SetupConf) (binaryName : String)
    (existing : List Sink) : List Sink :=
  let root : List Sink := detach_handlers_loop existing
  let logpath := get_log_file_path conf none binaryName
  let root :=
    if otruthy logpath then root ++ [Sink.file (logpath.getD "")] else root
  let root :=
    if conf.use_stderr then root ++ [Sink.colorConsole]
    else if !otruthy logpath then root ++ [Sink.stdoutConsole]
    else root
  let root := if conf.publish_errors then root ++ [Sink.publisher] else root
  root

/-! Helper lemmas about the dictionary and heap operations. -/

theorem alookup_aset_self {α : Type} (l : List (String × α)) (k : String)
    (v : α) : alookup (aset l k v) k = some v := by
  induction l with
  | nil => simp [aset, alookup]
  | cons p rest ih =>
    by_cases h : p.1 == k
    · simp [aset, alookup, h]
    · simp [aset, alookup, h, ih]

theorem alookup_aset_ne {α : Type} (l : List (String × α)) {k' k : String}
    (h : k' ≠ k) (v : α) : alookup (aset l k v) k' = alookup l k' := by
  induction l with
  | nil => simp [aset, alookup, Ne.symm h]
  | cons p rest ih =>
    by_cases hp : p.1 == k
    · have hp' : p.1 = k := by simpa using hp
      simp [aset, alookup, hp, hp', h, Ne.symm h]
    · simp [aset, alookup, hp, ih]

theorem apopD_fst {α : Type} (l : List (String × α)) (k : String) (d : α) :
    (apopD l k d).1 = (alookup l k).getD d := by
  induction l with
  | nil => simp [apopD, alookup]
  | cons p rest ih =>
    by_cases hp : p.1 == k
    · simp [apopD, alookup, hp]
    · simp [apopD, alookup, hp, ih]

theorem alookup_apopD_ne {α : Type} (l : List (String × α)) {k' k : String}
    (h : k' ≠ k) (d : α) : alookup (apopD l k d).2 k' = alookup l k' := by
  induction l with
  | nil => simp [apopD, alookup]
  | cons p rest ih =>
    by_cases hp : p.1 == k
    · have hp' : p.1 = k := by simpa using hp
      simp [apopD, alookup, hp, hp', Ne.symm h]
    · simp [apopD, alookup, hp, ih]

theorem asetdefault_of_some {α : Type} {l : List (String × α)} {k : String}
    {w : α} (h : alookup l k = some w) (v : α) : asetdefault l k v = l := by
  simp [asetdefault, h]

theorem alookup_append_nil {α : Type} (l : List (String × α)) {k : String}
    (h : alookup l k = none) (k' : String) (v : α) :
    alookup (l ++ [(k', v)]) k = if k' = k then some v else none := by
  induction l with
  | nil => simp [alookup]
  | cons p rest ih =>
    by_cases hp : p.1 == k
    · simp [alookup, hp] at h
    · simp [alookup, hp] at h ⊢
      exact ih h

theorem alookup_asetdefault_none {α : Type} {l : List (String × α)}
    {k : String} (h : alookup l k = none) (v : α) :
    alookup (asetdefault l k v) k = some v := by
  simp [asetdefault, h, alookup_append_nil l h k v]

theorem alookup_asetdefault_ne {α : Type} (l : List (String × α))
    {k' k : String} (h : k' ≠ k) (v : α) :
    alookup (asetdefault l k v) k' = alookup l k' := by
  unfold asetdefault
  cases hl : alookup l k with
  | some w => rfl
  | none =>
    induction l with
    | nil => simp [alookup, Ne.symm h]
    | cons p rest ih =>
      by_cases hp : p.1 == k'
      · simp [alookup, hp]
      · simp [alookup, hp] at ih ⊢
        by_cases hpk : p.1 == k
        · simp [alookup, hpk] at hl
        · simp [alookup, hpk] at hl
          exact ih hl

theorem length_hset (h : Heap) (n : Nat) (d : Dict) :
    (hset h n d).length = h.length := by
  simp [hset]

theorem hget_hset_self {h : Heap} {n : Nat} (hn : n < h.length) (d : Dict) :
    hget (hset h n d) n = d := by
  induction h generalizing n with
  | nil => simp at hn
  | cons x t ih =>
    cases n with
    | zero => simp [hget, hset]
    | succ m =>
      simp only [hget, hset, List.set, List.getD_cons_succ]
      exact ih (Nat.lt_of_succ_lt_succ hn)

theorem hget_hset_ne (h : Heap) {m n : Nat} (hmn : m ≠ n) (d : Dict) :
    hget (hset h n d) m = hget h m := by
  induction h generalizing m n with
  | nil => simp [hget, hset]
  | cons x t ih =>
    cases n with
    | zero =>
      cases m with
      | zero => exact absurd rfl hmn
      | succ m' => simp [hget, hset]
    | succ n' =>
      cases m with
      | zero => simp [hget, hset]
      | succ m' =>
        simp only [hget, hset, List.set, List.getD_cons_succ]
        exact ih (fun hc => hmn (congrArg Nat.succ hc))

theorem hget_append_len {h : Heap} {n : Nat} (hn : h.length = n) (d : Dict) :
    hget (h ++ [d]) n = d := by
  subst hn
  induction h with
  | nil => simp [hget]
  | cons x t ih =>
    simp only [List.cons_append, List.length_cons, hget, List.getD_cons_succ]
    exact ih

theorem hget_append_lt {h : Heap} {n : Nat} (hn : n < h.length) (d : Dict) :
    hget (h ++ [d]) n = hget h n := by
  induction h generalizing n with
  | nil => simp at hn
  | cons x t ih =>
    cases n with
    | zero => simp [hget]
    | succ m =>
      simp only [hget, List.cons_append, List.getD_cons_succ]
      exact ih (Nat.lt_of_succ_lt_succ hn)

theorem hget_ite (c : Prop) [Decidable c] (a b : Heap) (n : Nat) :
    hget (if c then a else b) n = if c then hget a n else hget b n :=
  apply_ite (fun h => hget h n) c a b

theorem length_ite {α : Type} (c : Prop) [Decidable c] (a b : List α) :
    (if c then a else b).length = if c then a.length else b.length :=
  apply_ite List.length c a b

theorem alookup_ite {α : Type} (c : Prop) [Decidable c]
    (a b : List (String × α)) (k : String) :
    alookup (if c then a else b) k = if c then alookup a k else alookup b k :=
  apply_ite (fun l => alookup l k) c a b

theorem apopD_ite {α : Type} (c : Prop) [Decidable c]
    (a b : List (String × α)) (k : String) (d : α) :
    apopD (if c then a else b) k d = if c then apopD a k d else apopD b k d :=
  apply_ite (fun l => apopD l k d) c a b

theorem hset_ite (c : Prop) [Decidable c] (a b : Heap) (n : Nat) (d : Dict) :
    hset (if c then a else b) n d = if c then hset a n d else hset b n d :=
  apply_ite (fun h => hset h n d) c a b

theorem append_ite {α : Type} (c : Prop) [Decidable c] (a b l : List α) :
    (if c then a else b) ++ l = if c then a ++ l else b ++ l :=
  apply_ite (fun x => x ++ l) c a b

theorem fst_ite {α β : Type} (c : Prop) [Decidable c] (a b : α × β) :
    (if c then a else b).1 = if c then a.1 else b.1 :=
  apply_ite Prod.fst c a b

theorem snd_ite {α β : Type} (c : Prop) [Decidable c] (a b : α × β) :
    (if c then a else b).2 = if c then a.2 else b.2 :=
  apply_ite Prod.snd c a b

set_option maxHeartbeats 1600000 in
theorem process_run (conf : Config) (ad : ContextAdapter) (sc : Option PyVal)
    (h0 : Heap) (k e : Nat) (hk : k < h0.length) (he : e < h0.length)
    (hke : k ≠ e)
    (hx : alookup (hget h0 k) "extra" = some (PyVal.vref e)) :
    let K0 := hget h0 k
    let E0 := hget h0 e
    let kwctx := (alookup K0 "context").getD PyVal.vnone
    let ctxv := if truthy kwctx then kwctx else sc.getD PyVal.vnone
    let E1 := if truthy ctxv then aupdate E0 (dictify_context ctxv) else E0
    let inst := (alookup K0 "instance").getD PyVal.vnone
    let g := (alookup E1 "instance_uuid").getD PyVal.vnone
    let uuid := if truthy g then g
                else (alookup K0 "instance_uuid").getD PyVal.vnone
    let ie := if truthy inst then PyVal.vstr (conf.instance_format inst)
              else if truthy uuid then
                PyVal.vstr (conf.instance_uuid_format uuid)
              else PyVal.vstr ""
    let uid := (alookup K0 "user_identity").getD PyVal.vnone
    let X := aset (aset (asetdefault (aset E1 "instance" ie)
              "user_identity" uid) "project" ad.project) "version" ad.version
    (process conf ad sc h0 k).2 = k ∧
    ((process conf ad sc h0 k).1).length = h0.length + 1 ∧
    hget (process conf ad sc h0 k).1 e = aset X "extra" (PyVal.vref h0.length) ∧
    hget (process conf ad sc h0 k).1 h0.length = X ∧
    alookup (hget (process conf ad sc h0 k).1 k) "extra" =
      some (PyVal.vref e) := by
  have hek : e ≠ k := Ne.symm hke
  have hle : e ≠ h0.length := Nat.ne_of_lt he
  have hlk : k ≠ h0.length := Nat.ne_of_lt hk
  have hel : h0.length ≠ e := Ne.symm hle
  have hkl : h0.length ≠ k := Ne.symm hlk
  have d1 : ("extra" : String) ≠ "context" := by decide
  have d2 : ("extra" : String) ≠ "instance" := by decide
  have d3 : ("extra" : String) ≠ "instance_uuid" := by decide
  have d4 : ("extra" : String) ≠ "user_identity" := by decide
  have d5 : ("instance" : String) ≠ "context" := by decide
  have d6 : ("instance_uuid" : String) ≠ "context" := by decide
  have d7 : ("instance_uuid" : String) ≠ "instance" := by decide
  have d8 : ("user_identity" : String) ≠ "context" := by decide
  have d9 : ("user_identity" : String) ≠ "instance" := by decide
  have d10 : ("user_identity" : String) ≠ "instance_uuid" := by decide
  have he1 : e < h0.length + 1 := Nat.lt_succ_of_lt he
  have hk1 : k < h0.length + 1 := Nat.lt_succ_of_lt hk
  have hll : h0.length < h0.length + 1 := Nat.lt_succ_self _
  refine ⟨rfl, ?_, ?_, ?_, ?_⟩ <;>
    simp [*, process, apopD_fst, halloc, hget_ite, hset_ite, append_ite,
      length_ite, alookup_ite, apopD_ite, fst_ite, snd_ite, hget_hset_self,
      hget_hset_ne, length_hset, hget_append_len, hget_append_lt,
      alookup_apopD_ne, alookup_aset_self, alookup_aset_ne,
      alookup_asetdefault_ne]

theorem getD_append_len {α : Type} {l : List α} {n : Nat} (hn : l.length = n)
    (x d : α) : (l ++ [x]).getD n d = x := by
  subst hn
  induction l with
  | nil => simp
  | cons y t ih =>
    simp only [List.cons_append, List.length_cons, List.getD_cons_succ]
    exact ih

/-- C1: with the fatal-deprecations policy inactive, a first
`deprecated(m, a)` whose argument tuple is not yet recorded for `m` emits
exactly one warning-severity record; repeating the identical call on the
resulting adapter state emits nothing; calling with a different tuple
`b ≠ a` (also not yet recorded) emits a warning-severity record again. -/
theorem deprecated_dedup (fi fu : PyVal → String) (ad : ContextAdapter)
    (msg : String) (a b : List PyVal) (kw1 kw2 kw3 : Dict)
    (ha : a ∉ (alookup ad.deprecatedMessagesSent msg).getD [])
    (hb : b ∉ (alookup ad.deprecatedMessagesSent msg).getD [])
    (hab : b ≠ a) :
    (deprecated ⟨false, fi, fu⟩ ad msg a kw1).2.1 =
      [⟨Level.warning, "Deprecated: " ++ msg, a, kw1⟩] ∧
    (deprecated ⟨false, fi, fu⟩ (deprecated ⟨false, fi, fu⟩ ad msg a kw1).1
        msg a kw2).2.1 = [] ∧
    (deprecated ⟨false, fi, fu⟩ (deprecated ⟨false, fi, fu⟩ ad msg a kw1).1
        msg b kw3).2.1 =
      [⟨Level.warning, "Deprecated: " ++ msg, b, kw3⟩] := by
  refine ⟨?_, ?_, ?_⟩
  · simp [deprecated, ha]
  · simp [deprecated, ha, alookup_aset_self]
  · simp [deprecated, ha, alookup_aset_self, hb, hab]

/-- Witness for `deprecated_dedup` at a concrete adapter and arguments. -/
theorem deprecated_dedup_witness :
    ([PyVal.vstr "x"] ∉ ((alookup (⟨"svc", PyVal.vstr "svc", PyVal.vstr "1",
        []⟩ : ContextAdapter).deprecatedMessagesSent "m").getD []) ∧
     [PyVal.vstr "y"] ∉ ((alookup (⟨"svc", PyVal.vstr "svc", PyVal.vstr "1",
        []⟩ : ContextAdapter).deprecatedMessagesSent "m").getD []) ∧
     ([PyVal.vstr "y"] : List PyVal) ≠ [PyVal.vstr "x"]) ∧
    ((deprecated ⟨false, fun _ => "", fun _ => ""⟩
        ⟨"svc", PyVal.vstr "svc", PyVal.vstr "1", []⟩ "m"
        [PyVal.vstr "x"] []).2.1 =
      [⟨Level.warning, "Deprecated: " ++ "m", [PyVal.vstr "x"], []⟩] ∧
     (deprecated ⟨false, fun _ => "", fun _ => ""⟩
        (deprecated ⟨false, fun _ => "", fun _ => ""⟩
          ⟨"svc", PyVal.vstr "svc", PyVal.vstr "1", []⟩ "m"
          [PyVal.vstr "x"] []).1 "m" [PyVal.vstr "x"] []).2.1 = [] ∧
     (deprecated ⟨false, fun _ => "", fun _ => ""⟩
        (deprecated ⟨false, fun _ => "", fun _ => ""⟩
          ⟨"svc", PyVal.vstr "svc", PyVal.vstr "1", []⟩ "m"
          [PyVal.vstr "x"] []).1 "m" [PyVal.vstr "y"] []).2.1 =
      [⟨Level.warning, "Deprecated: " ++ "m", [PyVal.vstr "y"], []⟩]) :=
  ⟨⟨by decide, by decide, by decide⟩,
    deprecated_dedup (fun _ => "") (fun _ => "")
      ⟨"svc", PyVal.vstr "svc", PyVal.vstr "1", []⟩ "m"
      [PyVal.vstr "x"] [PyVal.vstr "y"] [] [] []
      (by decide) (by decide) (by decide)⟩

/-- C2: with `fatal_deprecations` set, `deprecated` logs the formatted
message at critical severity and raises `DeprecatedConfig` carrying it,
leaving the deduplication table untouched, for every adapter state (so it
never returns normally, regardless of prior dedup state). -/
theorem deprecated_fatal (fi fu : PyVal → String) (ad : ContextAdapter)
    (msg : String) (args : List PyVal) (kw : Dict) :
    deprecated ⟨true, fi, fu⟩ ad msg args kw =
      (ad, [⟨Level.critical, "Deprecated: " ++ msg, args, kw⟩],
        some (DeprecatedConfig ("Deprecated: " ++ msg))) := rfl

/-- C7: on a name not yet cached, `getLogger` creates an adapter bound to
the raw logger of that very name, and every subsequent call with the same
name (any version) returns the identical cached instance, leaving the
registry unchanged. -/
theorem getLogger_identity (r : Registry) (name v1 : String)
    (hfresh : alookup r.table name = none) :
    (((getLogger r name v1).1.adapters.getD (getLogger r name v1).2
        default).loggerName = name) ∧
    (∀ v2, getLogger (getLogger r name v1).1 name v2 =
      ((getLogger r name v1).1, (getLogger r name v1).2)) := by
  constructor
  · simp [getLogger, hfresh, getD_append_len]
  · intro v2
    simp [getLogger, hfresh, alookup_aset_self]

/-- Witness for `getLogger_identity` on the empty registry. -/
theorem getLogger_identity_witness :
    (alookup (⟨[], []⟩ : Registry).table "svc" = none) ∧
    ((((getLogger ⟨[], []⟩ "svc" "1").1.adapters.getD
        (getLogger ⟨[], []⟩ "svc" "1").2 default).loggerName = "svc") ∧
     (∀ v2, getLogger (getLogger ⟨[], []⟩ "svc" "1").1 "svc" v2 =
        ((getLogger ⟨[], []⟩ "svc" "1").1, (getLogger ⟨[], []⟩ "svc" "1").2))) :=
  ⟨by decide, getLogger_identity ⟨[], []⟩ "svc" "1" (by decide)⟩

/-- C10: after the handle for a fresh name is created with version `v1`, a
later `getLogger` call with a different version `v2` returns the cached
handle, whose version is still `v1` and whose project field equals the
logger name it was created with. -/
theorem getLogger_version_ignored (r : Registry) (name v1 v2 : String)
    (hfresh : alookup r.table name = none) (_hne : v2 ≠ v1) :
    ((getLogger (getLogger r name v1).1 name v2).2 =
      (getLogger r name v1).2) ∧
    (((getLogger (getLogger r name v1).1 name v2).1.adapters.getD
        (getLogger (getLogger r name v1).1 name v2).2 default).version =
      PyVal.vstr v1) ∧
    (((getLogger (getLogger r name v1).1 name v2).1.adapters.getD
        (getLogger (getLogger r name v1).1 name v2).2 default).project =
      PyVal.vstr name) := by
  refine ⟨?_, ?_, ?_⟩ <;>
    simp [getLogger, hfresh, alookup_aset_self, getD_append_len]

/-- Witness for `getLogger_version_ignored` on the empty registry. -/
theorem getLogger_version_ignored_witness :
    (alookup (⟨[], []⟩ : Registry).table "svc" = none ∧ ("2" : String) ≠ "1") ∧
    (((getLogger (getLogger ⟨[], []⟩ "svc" "1").1 "svc" "2").2 =
        (getLogger ⟨[], []⟩ "svc" "1").2) ∧
     (((getLogger (getLogger ⟨[], []⟩ "svc" "1").1 "svc" "2").1.adapters.getD
          (getLogger (getLogger ⟨[], []⟩ "svc" "1").1 "svc" "2").2
          default).version = PyVal.vstr "1") ∧
     (((getLogger (getLogger ⟨[], []⟩ "svc" "1").1 "svc" "2").1.adapters.getD
          (getLogger (getLogger ⟨[], []⟩ "svc" "1").1 "svc" "2").2
          default).project = PyVal.vstr "svc")) :=
  ⟨⟨by decide, by decide⟩,
    getLogger_version_ignored ⟨[], []⟩ "svc" "1" "2" (by decide) (by decide)⟩

/-- C8 (code bug in the detach step): the loop at log.py lines 308-309
iterates the live handler list while removing from it, so every other
handler survives instead of all sinks being detached.  Concretely: with
handlers `[file "old.log", colorConsole]` attached by a prior
configuration, a new configuration that resolves the file path
`"app.log"` with `use_stderr` unset removes only the old file sink; the
surviving color console sink stays attached next to the new file sink —
although the claim says that in this case no console sink is attached at
all — and the resulting sink set depends on the previously attached
sinks. -/
theorem setup_sinks_detach_skip :
    (⟨some "app.log", none, false, false⟩ : SetupConf).use_stderr = false ∧
    otruthy (get_log_file_path ⟨some "app.log", none, false, false⟩ none
      "worker") = true ∧
    setup_logging_sinks ⟨some "app.log", none, false, false⟩ "worker"
      [Sink.file "old.log", Sink.colorConsole] =
      [Sink.colorConsole, Sink.file "app.log"] ∧
    Sink.colorConsole ∈ setup_logging_sinks
      ⟨some "app.log", none, false, false⟩ "worker"
      [Sink.file "old.log", Sink.colorConsole] ∧
    setup_logging_sinks ⟨some "app.log", none, false, false⟩ "worker"
      [Sink.file "old.log", Sink.colorConsole] ≠
      setup_logging_sinks ⟨some "app.log", none, false, false⟩ "worker" [] :=
  ⟨rfl, by decide, by decide, by decide, by decide⟩

/-- Concrete configuration used in witnesses and counterexamples. -/
def sampleConf : Config :=
  ⟨false, fun _ => "[instance: obj] ", fun v =>
    match v with
    | PyVal.vstr s => "[instance: " ++ s ++ "] "
    | _ => "[instance: ?] "⟩

/-- Concrete adapter used in witnesses and counterexamples. -/
def sampleAdapter : ContextAdapter :=
  ⟨"svc", PyVal.vstr "svc", PyVal.vstr "1.0", []⟩

/-- When the caller passes a truthy explicit `context` keyword argument,
`process` never consults the thread-local store: the whole run is
independent of it. -/
theorem process_indep_store (conf : Config) (ad : ContextAdapter)
    (sc1 sc2 : Option PyVal) (h0 : Heap) (k e : Nat)
    (hx : alookup (hget h0 k) "extra" = some (PyVal.vref e))
    (hctx : truthy ((alookup (hget h0 k) "context").getD PyVal.vnone) = true) :
    process conf ad sc1 h0 k = process conf ad sc2 h0 k := by
  simp only [process, hx, apopD_fst, hctx, if_true]

/-- C6: for every context (explicit or thread-local) and keyword set, the
enriched mapping and the snapshot stored under its `extra` key carry
`project` and `version` entries equal to the values bound at adapter
construction. -/
theorem process_project_version (conf : Config) (ad : ContextAdapter)
    (sc : Option PyVal) (h0 : Heap) (k e : Nat)
    (hk : k < h0.length) (he : e < h0.length) (hke : k ≠ e)
    (hx : alookup (hget h0 k) "extra" = some (PyVal.vref e)) :
    alookup (hget (process conf ad sc h0 k).1 e) "project" = some ad.project ∧
    alookup (hget (process conf ad sc h0 k).1 e) "version" = some ad.version ∧
    alookup (hget (process conf ad sc h0 k).1 h0.length) "project" =
      some ad.project ∧
    alookup (hget (process conf ad sc h0 k).1 h0.length) "version" =
      some ad.version := by
  obtain ⟨-, -, hextra, hcopy, -⟩ := process_run conf ad sc h0 k e hk he hke hx
  have d1 : ("project" : String) ≠ "extra" := by decide
  have d2 : ("version" : String) ≠ "extra" := by decide
  have d3 : ("project" : String) ≠ "version" := by decide
  refine ⟨?_, ?_, ?_, ?_⟩ <;>
    simp [hextra, hcopy, alookup_aset_self, alookup_aset_ne, d1, d2, d3]

/-- Witness for `process_project_version` at a concrete heap: kwargs at
slot 0 with a caller-supplied extra dictionary at slot 1 and a context
that itself carries a `project` field. -/
theorem process_project_version_witness :
    (0 < ([[("extra", PyVal.vref 1)], []] : Heap).length ∧
     1 < ([[("extra", PyVal.vref 1)], []] : Heap).length ∧
     (0 : Nat) ≠ 1 ∧
     alookup (hget [[("extra", PyVal.vref 1)], []] 0) "extra" =
       some (PyVal.vref 1)) ∧
    (alookup (hget (process sampleConf sampleAdapter
        (some (PyVal.vctx [("project", "ctxproj")]))
        [[("extra", PyVal.vref 1)], []] 0).1 1) "project" =
      some sampleAdapter.project ∧
     alookup (hget (process sampleConf sampleAdapter
        (some (PyVal.vctx [("project", "ctxproj")]))
        [[("extra", PyVal.vref 1)], []] 0).1 1) "version" =
      some sampleAdapter.version ∧
     alookup (hget (process sampleConf sampleAdapter
        (some (PyVal.vctx [("project", "ctxproj")]))
        [[("extra", PyVal.vref 1)], []] 0).1
        ([[("extra", PyVal.vref 1)], []] : Heap).length) "project" =
      some sampleAdapter.project ∧
     alookup (hget (process sampleConf sampleAdapter
        (some (PyVal.vctx [("project", "ctxproj")]))
        [[("extra", PyVal.vref 1)], []] 0).1
        ([[("extra", PyVal.vref 1)], []] : Heap).length) "version" =
      some sampleAdapter.version) :=
  ⟨⟨by decide, by decide, by decide, by decide⟩,
    process_project_version sampleConf sampleAdapter
      (some (PyVal.vctx [("project", "ctxproj")]))
      [[("extra", PyVal.vref 1)], []] 0 1
      (by decide) (by decide) (by decide) (by decide)⟩

theorem truthy_vnone : truthy PyVal.vnone = false := rfl

set_option maxHeartbeats 1600000 in
/-- C5: with no context in play, when a truthy `instance` keyword is
supplied the enriched `instance` field is produced by the instance-format
template applied to it (for every configuration, hence never derived from
any `instance_uuid`); when only an `instance_uuid` is available (from the
caller's extra sub-mapping, else the keyword) the field is produced by the
instance-uuid-format template; when neither is supplied the field is the
empty string. -/
theorem process_instance_precedence (conf : Config) (ad : ContextAdapter)
    (sc : Option PyVal) (h0 : Heap) (k e : Nat)
    (hk : k < h0.length) (he : e < h0.length) (hke : k ≠ e)
    (hx : alookup (hget h0 k) "extra" = some (PyVal.vref e))
    (hnoctx : truthy ((alookup (hget h0 k) "context").getD PyVal.vnone) =
      false)
    (hsc : sc = none) :
    (truthy ((alookup (hget h0 k) "instance").getD PyVal.vnone) = true →
      alookup (hget (process conf ad sc h0 k).1 e) "instance" =
        some (PyVal.vstr (conf.instance_format
          ((alookup (hget h0 k) "instance").getD PyVal.vnone)))) ∧
    (truthy ((alookup (hget h0 k) "instance").getD PyVal.vnone) = false →
      truthy ((alookup (hget h0 e) "instance_uuid").getD PyVal.vnone) =
        true →
      alookup (hget (process conf ad sc h0 k).1 e) "instance" =
        some (PyVal.vstr (conf.instance_uuid_format
          ((alookup (hget h0 e) "instance_uuid").getD PyVal.vnone)))) ∧
    (truthy ((alookup (hget h0 k) "instance").getD PyVal.vnone) = false →
      truthy ((alookup (hget h0 e) "instance_uuid").getD PyVal.vnone) =
        false →
      truthy ((alookup (hget h0 k) "instance_uuid").getD PyVal.vnone) =
        true →
      alookup (hget (process conf ad sc h0 k).1 e) "instance" =
        some (PyVal.vstr (conf.instance_uuid_format
          ((alookup (hget h0 k) "instance_uuid").getD PyVal.vnone)))) ∧
    (truthy ((alookup (hget h0 k) "instance").getD PyVal.vnone) = false →
      truthy ((alookup (hget h0 e) "instance_uuid").getD PyVal.vnone) =
        false →
      truthy ((alookup (hget h0 k) "instance_uuid").getD PyVal.vnone) =
        false →
      alookup (hget (process conf ad sc h0 k).1 e) "instance" =
        some (PyVal.vstr "")) := by
  subst hsc
  obtain ⟨-, -, hextra, -, -⟩ := process_run conf ad none h0 k e hk he hke hx
  simp only [hnoctx, Option.getD_none, truthy_vnone, Bool.false_eq_true,
    if_false] at hextra
  have d1 : ("instance" : String) ≠ "extra" := by decide
  have d2 : ("instance" : String) ≠ "version" := by decide
  have d3 : ("instance" : String) ≠ "project" := by decide
  have d4 : ("instance" : String) ≠ "user_identity" := by decide
  refine ⟨?_, ?_, ?_, ?_⟩
  · intro h1
    simp [hextra, h1, alookup_aset_self, alookup_aset_ne,
      alookup_asetdefault_ne, d1, d2, d3, d4]
  · intro h1 h2
    simp [hextra, h1, h2, alookup_aset_self, alookup_aset_ne,
      alookup_asetdefault_ne, d1, d2, d3, d4]
  · intro h1 h2 h3
    simp [hextra, h1, h2, h3, alookup_aset_self, alookup_aset_ne,
      alookup_asetdefault_ne, d1, d2, d3, d4]
  · intro h1 h2 h3
    simp [hextra, h1, h2, h3, alookup_aset_self, alookup_aset_ne,
      alookup_asetdefault_ne, d1, d2, d3, d4]

/-- Witness for `process_instance_precedence`: both `instance` and
`instance_uuid` are supplied and the enriched field derives from
`instance` via the instance-format template. -/
theorem process_instance_precedence_witness :
    (0 < ([[("extra", PyVal.vref 1), ("instance", PyVal.vstr "OBJ"),
        ("instance_uuid", PyVal.vstr "u-1")], []] : Heap).length ∧
     truthy ((alookup (hget [[("extra", PyVal.vref 1),
        ("instance", PyVal.vstr "OBJ"),
        ("instance_uuid", PyVal.vstr "u-1")], []] 0) "context").getD
        PyVal.vnone) = false ∧
     truthy ((alookup (hget [[("extra", PyVal.vref 1),
        ("instance", PyVal.vstr "OBJ"),
        ("instance_uuid", PyVal.vstr "u-1")], []] 0) "instance").getD
        PyVal.vnone) = true) ∧
    alookup (hget (process sampleConf sampleAdapter none
        [[("extra", PyVal.vref 1), ("instance", PyVal.vstr "OBJ"),
          ("instance_uuid", PyVal.vstr "u-1")], []] 0).1 1) "instance" =
      some (PyVal.vstr (sampleConf.instance_format
        ((alookup (hget [[("extra", PyVal.vref 1),
          ("instance", PyVal.vstr "OBJ"),
          ("instance_uuid", PyVal.vstr "u-1")], []] 0) "instance").getD
          PyVal.vnone))) :=
  ⟨⟨by decide, by decide, by decide⟩,
    (process_instance_precedence sampleConf sampleAdapter none
      [[("extra", PyVal.vref 1), ("instance", PyVal.vstr "OBJ"),
        ("instance_uuid", PyVal.vstr "u-1")], []] 0 1
      (by decide) (by decide) (by decide) (by decide) (by decide) rfl).1
      (by decide)⟩

set_option maxHeartbeats 1600000 in
/-- C9 (amended): with no context in play, the `user_identity` entry of
the enriched mapping is taken from the caller-supplied extra mapping when
that key is already present, else from the `user_identity` keyword
argument; when neither is supplied the key is not left absent but set to
the null value None. -/
theorem process_user_identity (conf : Config) (ad : ContextAdapter)
    (sc : Option PyVal) (h0 : Heap) (k e : Nat)
    (hk : k < h0.length) (he : e < h0.length) (hke : k ≠ e)
    (hx : alookup (hget h0 k) "extra" = some (PyVal.vref e))
    (hnoctx : truthy ((alookup (hget h0 k) "context").getD PyVal.vnone) =
      false)
    (hsc : sc = none) :
    (∀ w, alookup (hget h0 e) "user_identity" = some w →
      alookup (hget (process conf ad sc h0 k).1 e) "user_identity" =
        some w) ∧
    (alookup (hget h0 e) "user_identity" = none →
      ∀ u, alookup (hget h0 k) "user_identity" = some u →
      alookup (hget (process conf ad sc h0 k).1 e) "user_identity" =
        some u) ∧
    (alookup (hget h0 e) "user_identity" = none →
      alookup (hget h0 k) "user_identity" = none →
      alookup (hget (process conf ad sc h0 k).1 e) "user_identity" =
        some PyVal.vnone) := by
  subst hsc
  obtain ⟨-, -, hextra, -, -⟩ := process_run conf ad none h0 k e hk he hke hx
  simp only [hnoctx, Option.getD_none, truthy_vnone, Bool.false_eq_true,
    if_false] at hextra
  have d1 : ("user_identity" : String) ≠ "extra" := by decide
  have d2 : ("user_identity" : String) ≠ "version" := by decide
  have d3 : ("user_identity" : String) ≠ "project" := by decide
  have d4 : ("user_identity" : String) ≠ "instance" := by decide
  refine ⟨?_, ?_, ?_⟩
  · intro w hw
    simp [hextra, alookup_aset_ne, d1, d2, d3, d4, hw,
      asetdefault_of_some (alookup_aset_ne (hget h0 e) d4
        _ ▸ hw : alookup (aset (hget h0 e) "instance" _) "user_identity"
          = some w)]
  · intro hnone u hu
    simp [hextra, alookup_aset_ne, alookup_asetdefault_none, d1, d2, d3,
      d4, hnone, hu]
  · intro hnone hnokw
    simp [hextra, alookup_aset_ne, alookup_asetdefault_none, d1, d2, d3,
      d4, hnone, hnokw]

/-- Witness for `process_user_identity`: no `user_identity` in the
caller's extra mapping, a `user_identity` keyword argument supplied. -/
theorem process_user_identity_witness :
    (alookup (hget [[("extra", PyVal.vref 1),
        ("user_identity", PyVal.vstr "bob")], []] 1) "user_identity" =
        none ∧
     alookup (hget [[("extra", PyVal.vref 1),
        ("user_identity", PyVal.vstr "bob")], []] 0) "user_identity" =
        some (PyVal.vstr "bob")) ∧
    alookup (hget (process sampleConf sampleAdapter none
        [[("extra", PyVal.vref 1), ("user_identity", PyVal.vstr "bob")],
         []] 0).1 1) "user_identity" = some (PyVal.vstr "bob") :=
  ⟨⟨by decide, by decide⟩,
    (process_user_identity sampleConf sampleAdapter none
      [[("extra", PyVal.vref 1), ("user_identity", PyVal.vstr "bob")], []]
      0 1 (by decide) (by decide) (by decide) (by decide) (by decide)
      rfl).2.1 (by decide) (PyVal.vstr "bob") (by decide)⟩

/-- C9 counterexample (claim as stated): when neither the caller's extra
mapping nor the keyword arguments supply a `user_identity`, the enriched
mapping does not leave the key absent — it is present and bound to None. -/
theorem process_user_identity_cex :
    alookup (hget (process sampleConf sampleAdapter none
        [[("extra", PyVal.vref 1)], []] 0).1 1) "user_identity" =
      some PyVal.vnone ∧
    some PyVal.vnone ≠ (none : Option PyVal) := by
  exact ⟨by decide, by decide⟩

/-- C3 (amended): `process` stores under the enriched mapping's `extra`
key a reference to a freshly allocated snapshot equal to the accumulated
extras at enrichment time, and mutating the kwargs dictionary or the
caller-supplied extra dictionary afterwards leaves that snapshot
unchanged; the enriched mapping itself, however, is the caller-supplied
extra dictionary (the returned kwargs' `extra` entry still references
it), so in-place mutation of that dictionary does change the enriched
mapping. -/
theorem process_snapshot_copy (conf : Config) (ad : ContextAdapter)
    (sc : Option PyVal) (h0 : Heap) (k e : Nat)
    (hk : k < h0.length) (he : e < h0.length) (hke : k ≠ e)
    (hx : alookup (hget h0 k) "extra" = some (PyVal.vref e)) :
    alookup (hget (process conf ad sc h0 k).1 k) "extra" =
      some (PyVal.vref e) ∧
    alookup (hget (process conf ad sc h0 k).1 e) "extra" =
      some (PyVal.vref h0.length) ∧
    h0.length ≠ k ∧ h0.length ≠ e ∧
    hget (process conf ad sc h0 k).1 e =
      aset (hget (process conf ad sc h0 k).1 h0.length) "extra"
        (PyVal.vref h0.length) ∧
    (∀ d, hget (hset (process conf ad sc h0 k).1 k d) h0.length =
        hget (process conf ad sc h0 k).1 h0.length ∧
      hget (hset (process conf ad sc h0 k).1 e d) h0.length =
        hget (process conf ad sc h0 k).1 h0.length) := by
  obtain ⟨-, -, hextra, hcopy, hkw⟩ :=
    process_run conf ad sc h0 k e hk he hke hx
  have hlk : h0.length ≠ k := Ne.symm (Nat.ne_of_lt hk)
  have hle : h0.length ≠ e := Ne.symm (Nat.ne_of_lt he)
  refine ⟨hkw, ?_, hlk, hle, ?_, ?_⟩
  · rw [hextra]
    exact alookup_aset_self _ _ _
  · rw [hextra, hcopy]
  · intro d
    exact ⟨hget_hset_ne _ hlk _, hget_hset_ne _ hle _⟩

/-- Witness for `process_snapshot_copy` at a concrete two-object heap. -/
theorem process_snapshot_copy_witness :
    (0 < ([[("extra", PyVal.vref 1)], [("a", PyVal.vstr "orig")]] :
        Heap).length ∧
     alookup (hget [[("extra", PyVal.vref 1)],
        [("a", PyVal.vstr "orig")]] 0) "extra" = some (PyVal.vref 1)) ∧
    (alookup (hget (process sampleConf sampleAdapter none
        [[("extra", PyVal.vref 1)], [("a", PyVal.vstr "orig")]] 0).1 1)
      "extra" = some (PyVal.vref 2) ∧
     hget (process sampleConf sampleAdapter none
        [[("extra", PyVal.vref 1)], [("a", PyVal.vstr "orig")]] 0).1 1 =
      aset (hget (process sampleConf sampleAdapter none
        [[("extra", PyVal.vref 1)], [("a", PyVal.vstr "orig")]] 0).1 2)
        "extra" (PyVal.vref 2)) :=
  ⟨⟨by decide, by decide⟩,
    ⟨(process_snapshot_copy sampleConf sampleAdapter none
        [[("extra", PyVal.vref 1)], [("a", PyVal.vstr "orig")]] 0 1
        (by decide) (by decide) (by decide) (by decide)).2.1,
     (process_snapshot_copy sampleConf sampleAdapter none
        [[("extra", PyVal.vref 1)], [("a", PyVal.vstr "orig")]] 0 1
        (by decide) (by decide) (by decide) (by decide)).2.2.2.2.1⟩⟩

/-- C3 counterexample (claim as stated): after `process` returns, the
returned kwargs' `extra` entry still references the caller-supplied extra
dictionary, and mutating that dictionary in place afterwards changes the
already-returned enriched mapping: its key `a` read "orig" at return time
and reads "mut" after the mutation. -/
theorem process_snapshot_cex :
    alookup (hget (process sampleConf sampleAdapter none
        [[("extra", PyVal.vref 1)], [("a", PyVal.vstr "orig")]] 0).1 0)
      "extra" = some (PyVal.vref 1) ∧
    alookup (hget (process sampleConf sampleAdapter none
        [[("extra", PyVal.vref 1)], [("a", PyVal.vstr "orig")]] 0).1 1)
      "a" = some (PyVal.vstr "orig") ∧
    alookup (hget (hset (process sampleConf sampleAdapter none
          [[("extra", PyVal.vref 1)], [("a", PyVal.vstr "orig")]] 0).1 1
        (aset (hget (process sampleConf sampleAdapter none
            [[("extra", PyVal.vref 1)], [("a", PyVal.vstr "orig")]] 0).1 1)
          "a" (PyVal.vstr "mut"))) 1) "a" = some (PyVal.vstr "mut") := by
  exact ⟨by decide, by decide, by decide⟩

set_option maxHeartbeats 1600000 in
/-- C4: the effective context is resolved in order — a truthy explicit
`context` keyword wins (the run is then independent of the thread-local
store and the extras are updated with that context's projection);
otherwise the thread-local store's context is used; otherwise no context
is used, and enrichment still completes with every key other than the
five adapter-written ones (`instance`, `user_identity`, `project`,
`version`, `extra`) left untouched in the enriched mapping. -/
theorem process_context_order (conf : Config) (ad : ContextAdapter)
    (sc : Option PyVal) (h0 : Heap) (k e : Nat)
    (hk : k < h0.length) (he : e < h0.length) (hke : k ≠ e)
    (hx : alookup (hget h0 k) "extra" = some (PyVal.vref e)) :
    (truthy ((alookup (hget h0 k) "context").getD PyVal.vnone) = true →
      (∀ sc2, process conf ad sc h0 k = process conf ad sc2 h0 k) ∧
      (∃ ie uid, hget (process conf ad sc h0 k).1 h0.length =
        aset (aset (asetdefault (aset
          (aupdate (hget h0 e) (dictify_context
            ((alookup (hget h0 k) "context").getD PyVal.vnone)))
          "instance" ie) "user_identity" uid) "project" ad.project)
          "version" ad.version)) ∧
    (truthy ((alookup (hget h0 k) "context").getD PyVal.vnone) = false →
      truthy (sc.getD PyVal.vnone) = true →
      ∃ ie uid, hget (process conf ad sc h0 k).1 h0.length =
        aset (aset (asetdefault (aset
          (aupdate (hget h0 e) (dictify_context (sc.getD PyVal.vnone)))
          "instance" ie) "user_identity" uid) "project" ad.project)
          "version" ad.version) ∧
    (truthy ((alookup (hget h0 k) "context").getD PyVal.vnone) = false →
      truthy (sc.getD PyVal.vnone) = false →
      (∃ ie uid, hget (process conf ad sc h0 k).1 h0.length =
        aset (aset (asetdefault (aset (hget h0 e) "instance" ie)
          "user_identity" uid) "project" ad.project)
          "version" ad.version) ∧
      (∀ key, key ≠ "instance" → key ≠ "user_identity" → key ≠ "project" →
        key ≠ "version" → key ≠ "extra" →
        alookup (hget (process conf ad sc h0 k).1 e) key =
          alookup (hget h0 e) key)) := by
  obtain ⟨-, -, hextra, hcopy, -⟩ :=
    process_run conf ad sc h0 k e hk he hke hx
  refine ⟨?_, ?_, ?_⟩
  · intro hctx
    refine ⟨fun sc2 => process_indep_store conf ad sc sc2 h0 k e hx hctx, ?_⟩
    simp only [hctx, if_true] at hcopy
    exact ⟨_, _, hcopy⟩
  · intro hctx hst
    simp only [hctx, hst, Bool.false_eq_true, if_false, if_true] at hcopy
    exact ⟨_, _, hcopy⟩
  · intro hctx hst
    simp only [hctx, hst, Bool.false_eq_true, if_false] at hcopy hextra
    constructor
    · exact ⟨_, _, hcopy⟩
    · intro key n1 n2 n3 n4 n5
      simp [hextra, alookup_aset_ne, alookup_asetdefault_ne,
        n1, n2, n3, n4, n5]

/-- Witness for `process_context_order`: no explicit `context` keyword, a
thread-local store context present — the store context's projection is
merged into the enriched extras. -/
theorem process_context_order_witness :
    (truthy ((alookup (hget [[("extra", PyVal.vref 1)], []] 0)
        "context").getD PyVal.vnone) = false ∧
     truthy ((some (PyVal.vctx [("user", "u")])).getD PyVal.vnone) =
       true) ∧
    (∃ ie uid, hget (process sampleConf sampleAdapter
        (some (PyVal.vctx [("user", "u")]))
        [[("extra", PyVal.vref 1)], []] 0).1
        ([[("extra", PyVal.vref 1)], []] : Heap).length =
      aset (aset (asetdefault (aset
        (aupdate (hget [[("extra", PyVal.vref 1)], []] 1)
          (dictify_context ((some (PyVal.vctx [("user", "u")])).getD
            PyVal.vnone)))
        "instance" ie) "user_identity" uid) "project"
        sampleAdapter.project) "version" sampleAdapter.version) :=
  ⟨⟨by decide, by decide⟩,
    (process_context_order sampleConf sampleAdapter
      (some (PyVal.vctx [("user", "u")]))
      [[("extra", PyVal.vref 1)], []] 0 1
      (by decide) (by decide) (by decide) (by decide)).2.1
      (by decide) (by decide)⟩
